import Mathlib

/-!
Verification of the Cesium georeference core (CesiumGeoreference.cpp) and the
WMTS raster-overlay component (CesiumWebMapTileServiceRasterOverlay.cpp).

The C++ code is shallowly embedded: doubles are modelled as rationals,
32/64-bit machine integers as mathematical integers with explicit clamping
where the code clamps, Unreal `TArray` as `List`, and `std::optional` as
`Option`.  Functions of external libraries (glm, CesiumGeospatial,
CesiumTransforms, the Cesium3DTilesSelection option defaults) are passed in
as explicit parameters, since only this repository's own logic is under
verification.
-/

/-- A 3-vector of rationals, standing for `glm::dvec3` / `FVector`. -/
structure Vec3 where
  x : ℚ
  y : ℚ
  z : ℚ
deriving DecidableEq

/-- An integer 3-vector, standing for Unreal's `FIntVector` world origin. -/
structure IntVec3 where
  x : ℤ
  y : ℤ
  z : ℤ
deriving DecidableEq

/-- 4x4 double matrix, standing for `glm::dmat4`. -/
abbrev Mat4 := Matrix (Fin 4) (Fin 4) ℚ

/-- Component-wise vector addition (`glm::dvec3` addition). -/
def vadd (a b : Vec3) : Vec3 := ⟨a.x + b.x, a.y + b.y, a.z + b.z⟩

/-- Division of a vector by a (positive) count, `center /= numberOfPositions`. -/
def vdivNat (a : Vec3) (n : ℕ) : Vec3 := ⟨a.x / n, a.y / n, a.z / n⟩

/-- Sum of a list of vectors starting from the zero vector. -/
def vsum (l : List Vec3) : Vec3 := l.foldl vadd ⟨0, 0, 0⟩

/-- The `EOriginPlacement` enum of the plugin. -/
inductive EOriginPlacement where
  | TrueOrigin
  | BoundingVolumeOrigin
  | CartographicOrigin
deriving DecidableEq

/-- A registered geo-referenced object, i.e. one entry of the
`_georeferencedObjects` weak-pointer array.  `oid` models the object's
identity (its pointer), `valid` models `TWeakInterfacePtr::IsValid()`,
`bvReady` models `IsBoundingVolumeReady()` and `boundingVolumeCenter`
models `GetBoundingVolume()` already reduced to its center point. -/
structure GeoObject where
  oid : ℕ
  valid : Bool
  bvReady : Bool
  boundingVolumeCenter : Option Vec3
deriving DecidableEq

/-- One `FCesiumSubLevel` entry. -/
structure FCesiumSubLevel where
  levelName : String
  levelLongitude : ℚ
  levelLatitude : ℚ
  levelHeight : ℚ
  loadRadius : ℚ
  currentlyLoaded : Bool
deriving DecidableEq

/-- The mathematical services the plugin calls but does not define:
glm matrix helpers, the `CesiumGeospatial` ellipsoid conversions and the
constant matrices of `CesiumTransforms.h`.  They are parameters of the
embedding; no claim depends on their concrete values. -/
structure ExternalMath where
  eastNorthUpToFixedFrame : Vec3 → Mat4
  affineInverse : Mat4 → Mat4
  cartographicToCartesianDeg : ℚ → ℚ → ℚ → Vec3
  scaleToCesium : Mat4
  unrealToOrFromCesium : Mat4
  scaleToUnrealWorld : Mat4

/-- The state of one `ACesiumGeoreference` actor: its configuration
properties, its sub-level registry, the registered-object array, the
`_insideSublevel` flag and the four cached matrices of the transform
chain. -/
structure GeorefState where
  originPlacement : EOriginPlacement
  originLongitude : ℚ
  originLatitude : ℚ
  originHeight : ℚ
  keepWorldOriginNearCamera : Bool
  maximumWorldOriginDistanceFromCamera : ℚ
  originRebaseInsideSublevels : Bool
  cesiumSubLevels : List FCesiumSubLevel
  insideSublevel : Bool
  georeferencedObjects : List GeoObject
  georeferencedToEcef : Mat4
  ecefToGeoreferenced : Mat4
  ueAbsToEcef : Mat4
  ecefToUeAbs : Mat4

/-- One iteration of the accumulation loop of the bounding-volume branch
of `UpdateGeoreference`: an object that is valid, bounding-volume-ready
and returns a bounding volume contributes its center to the running sum
and count; every other object is skipped. -/
def bvStep (acc : Vec3 × ℕ) (o : GeoObject) : Vec3 × ℕ :=
  if o.valid && o.bvReady then
    match o.boundingVolumeCenter with
    | some c => (vadd acc.1 c, acc.2 + 1)
    | none => acc
  else acc

/-- The accumulation loop of the bounding-volume branch of
`UpdateGeoreference`: sums the centers of every registered object that is
valid, bounding-volume-ready and returns a bounding volume, and counts
them. -/
def bvAccum (objs : List GeoObject) : Vec3 × ℕ :=
  objs.foldl bvStep (⟨0, 0, 0⟩, 0)

/-- The `georeferencedToEcef` matrix computed by `UpdateGeoreference`:
identity for `TrueOrigin`, otherwise the east-north-up frame at a center
that depends on the origin-placement mode. -/
def computeGeoreferencedToEcef (ext : ExternalMath) (s : GeorefState) : Mat4 :=
  if s.originPlacement = EOriginPlacement.TrueOrigin then 1
  else
    let center : Vec3 :=
      if s.originPlacement = EOriginPlacement.BoundingVolumeOrigin then
        let acc := bvAccum s.georeferencedObjects
        if 0 < acc.2 then vdivNat acc.1 acc.2 else ⟨0, 0, 0⟩
      else
        ext.cartographicToCartesianDeg s.originLongitude s.originLatitude
          s.originHeight
    ext.eastNorthUpToFixedFrame center

/-- `ACesiumGeoreference::UpdateGeoreference`: recomputes the four matrices
of the transform chain as a unit, then notifies every still-valid
registered object, in registration order.  The returned list is the
sequence of object identities on which `NotifyGeoreferenceUpdated()` was
invoked.  (The trailing `_setSunSky` call only mutates the external SunSky
actor and is outside the modelled state.) -/
def UpdateGeoreference (ext : ExternalMath) (s : GeorefState) :
    GeorefState × List ℕ :=
  let g2e := computeGeoreferencedToEcef ext s
  let e2g := ext.affineInverse g2e
  let ue2e := g2e * ext.scaleToCesium * ext.unrealToOrFromCesium
  let e2ue := ext.unrealToOrFromCesium * ext.scaleToUnrealWorld * e2g
  let notified := (s.georeferencedObjects.filter (fun o => o.valid)).map
    (fun o => o.oid)
  ({ s with
      georeferencedToEcef := g2e
      ecefToGeoreferenced := e2g
      ueAbsToEcef := ue2e
      ecefToUeAbs := e2ue }, notified)

/-- `ACesiumGeoreference::_setGeoreferenceOrigin`: stores the target origin
and rebuilds the transform chain. -/
def setGeoreferenceOriginInternal (ext : ExternalMath)
    (targetLongitude targetLatitude targetHeight : ℚ) (s : GeorefState) :
    GeorefState × List ℕ :=
  UpdateGeoreference ext
    { s with
        originLongitude := targetLongitude
        originLatitude := targetLatitude
        originHeight := targetHeight }

/-- `ACesiumGeoreference::SetGeoreferenceOrigin`: the public origin setter,
guarded by the `_insideSublevel` flag. -/
def SetGeoreferenceOrigin (ext : ExternalMath)
    (targetLongitudeLatitudeHeight : Vec3) (s : GeorefState) :
    GeorefState × List ℕ :=
  if s.insideSublevel then (s, [])
  else
    setGeoreferenceOriginInternal ext
      targetLongitudeLatitudeHeight.x
      targetLongitudeLatitudeHeight.y
      targetLongitudeLatitudeHeight.z s

/-- `ACesiumGeoreference::AddGeoreferencedObject`: duplicate registrations
(matched by object identity among still-valid entries, as the pointer
comparison in the source does) return early with no notification; a new
object is appended and one `UpdateGeoreference` pass runs. -/
def AddGeoreferencedObject (ext : ExternalMath) (obj : GeoObject)
    (s : GeorefState) : GeorefState × List ℕ :=
  if s.georeferencedObjects.any (fun o => o.valid && o.oid == obj.oid) then
    (s, [])
  else
    UpdateGeoreference ext
      { s with georeferencedObjects := s.georeferencedObjects ++ [obj] }

/-- `ACesiumGeoreference::CheckForNewSubLevels`: for every streamed-level
name not yet present in `CesiumSubLevels`, append a new entry with the
current global origin, the default radius `1000.0`, and the loaded flag
`false`.  (This method is public and is not invoked from `Tick`.) -/
def CheckForNewSubLevels (streamedNames : List String) (s : GeorefState) :
    GeorefState :=
  { s with
      cesiumSubLevels :=
        streamedNames.foldl
          (fun subs nm =>
            if subs.any (fun l => l.levelName == nm) then subs
            else
              subs ++ [⟨nm, s.originLongitude, s.originLatitude,
                s.originHeight, 1000, false⟩])
          s.cesiumSubLevels }

/-- `INT32_MIN`, the value of `TNumericLimits<int32>::Min()`. -/
def int32Min : ℤ := -(2 ^ 31)

/-- `INT32_MAX`, the value of `TNumericLimits<int32>::Max()`. -/
def int32Max : ℤ := 2 ^ 31 - 1

/-- Truncation toward zero, the behaviour of `static_cast<int64>` on a
floating-point value. -/
def ratTrunc (f : ℚ) : ℤ := f.num.tdiv f.den

/-- The anonymous-namespace helper `clampedAdd`: adds the (truncated)
floating-point value and the 32-bit integer in 64-bit arithmetic, then
clamps the sum to the 32-bit signed range. -/
def clampedAdd (f : ℚ) (i : ℤ) : ℤ :=
  let sum : ℤ := ratTrunc f + i
  max int32Min (min int32Max sum)

/-- `FVector::Equals(FVector::ZeroVector, tol)`: every component within
`tol` of zero. -/
def vecNearZero (v : Vec3) (tol : ℚ) : Prop :=
  |v.x| ≤ tol ∧ |v.y| ≤ tol ∧ |v.z| ≤ tol

instance (v : Vec3) (tol : ℚ) : Decidable (vecNearZero v tol) := by
  unfold vecNearZero; infer_instance

/-- `ACesiumGeoreference::_performOriginRebasing`.  Returns the argument of
the `SetNewWorldOrigin` call this tick, or `none` when no world-origin
change is requested.  `isGame` is `GetWorld()->IsGameWorld()`,
`cameraValid` is `IsValid(WorldOriginCamera)`, `cameraLocation` is the
view target's location and `originLocation` the current floating
origin. -/
def performOriginRebasing (s : GeorefState) (isGame cameraValid : Bool)
    (cameraLocation : Vec3) (originLocation : IntVec3) : Option IntVec3 :=
  if !isGame then none
  else if !cameraValid then none
  else if !s.keepWorldOriginNearCamera then none
  else if s.insideSublevel && !s.originRebaseInsideSublevels then
    if originLocation ≠ ⟨0, 0, 0⟩ then some ⟨0, 0, 0⟩ else none
  else if ¬ vecNearZero cameraLocation s.maximumWorldOriginDistanceFromCamera
  then
    some ⟨clampedAdd cameraLocation.x originLocation.x,
      clampedAdd cameraLocation.y originLocation.y,
      clampedAdd cameraLocation.z originLocation.z⟩
  else none

/-- `DBL_MAX`, the value of `TNumericLimits<double>::Max()` used as the
initial `closestLevelDistance`. -/
def dblMax : ℚ := (2 ^ 53 - 1) * 2 ^ 971

/-- The inner loop of both sub-level passes: index of the first entry of
`CesiumSubLevels` whose `LevelName` equals the streamed level's short
name. -/
def findLevelIdx (nm : String) : List FCesiumSubLevel → Option ℕ
  | [] => none
  | l :: ls =>
    if l.levelName = nm then some 0 else (findLevelIdx nm ls).map (· + 1)

/-- The running state of the loop of `_updateSublevelState` over the
streamed levels: the (possibly flag-mutated) sub-level array, the current
candidate (`currentSublevel`/`currentCesiumSublevel`, as an index),
`closestLevelDistance`, and the `SetShouldBeLoaded`/`SetShouldBeVisible`
requests issued so far, as pairs of a sub-level index and the requested
load state. -/
structure SublevelPassState where
  subLevels : List FCesiumSubLevel
  currentIdx : Option ℕ
  closest : ℚ
  events : List (ℕ × Bool)

/-- One iteration of the streamed-levels loop of `_updateSublevelState`.
`levelDist` is the straight-line ECEF distance from the viewer to the
point at the given longitude/latitude/height — the composition of
`CesiumGeospatial::Ellipsoid::WGS84.cartographicToCartesian`,
`Cartographic::fromDegrees` and `glm::length` with the camera's ECEF
position, all external mathematics. -/
def sublevelStep (levelDist : ℚ → ℚ → ℚ → ℚ) (st : SublevelPassState)
    (nm : String) : SublevelPassState :=
  match findLevelIdx nm st.subLevels with
  | none => st
  | some i =>
    match st.subLevels[i]? with
    | none => st
    | some l =>
      let d := levelDist l.levelLongitude l.levelLatitude l.levelHeight
      if d < l.loadRadius ∧ d < st.closest then
        match st.currentIdx with
        | some j =>
          match st.subLevels[j]? with
          | some cj =>
            if cj.currentlyLoaded then
              { subLevels :=
                  st.subLevels.set j { cj with currentlyLoaded := false }
                currentIdx := some i
                closest := d
                events := st.events ++ [(j, false)] }
            else { st with currentIdx := some i, closest := d }
          | none => { st with currentIdx := some i, closest := d }
        | none => { st with currentIdx := some i, closest := d }
      else
        if l.currentlyLoaded then
          { st with
              subLevels := st.subLevels.set i { l with currentlyLoaded := false }
              events := st.events ++ [(i, false)] }
        else st

/-- The outcome of `ACesiumGeoreference::_updateSublevelState`:
the updated sub-level array, the load/unload requests issued to the host,
the origin switch performed through `_jumpToLevel` (if any), the final
candidate, and the returned boolean (which `Tick` stores into
`_insideSublevel`). -/
structure SublevelPassResult where
  subLevels : List FCesiumSubLevel
  events : List (ℕ × Bool)
  originSwitch : Option Vec3
  candidate : Option ℕ
  insideSublevel : Bool

/-- The epilogue of `_updateSublevelState` after the streamed-levels loop:
if a candidate exists and is not already loaded, jump the georeference
origin to it (`_jumpToLevel`), request host load/show and mark it
loaded. -/
def finalizeSublevelPass (st : SublevelPassState) : SublevelPassResult :=
  match st.currentIdx with
  | some j =>
    match st.subLevels[j]? with
    | some cj =>
      if cj.currentlyLoaded then
        { subLevels := st.subLevels, events := st.events,
          originSwitch := none, candidate := some j, insideSublevel := true }
      else
        { subLevels := st.subLevels.set j { cj with currentlyLoaded := true }
          events := st.events ++ [(j, true)]
          originSwitch :=
            some ⟨cj.levelLongitude, cj.levelLatitude, cj.levelHeight⟩
          candidate := some j
          insideSublevel := true }
    | none =>
      { subLevels := st.subLevels, events := st.events, originSwitch := none,
        candidate := some j, insideSublevel := true }
  | none =>
    { subLevels := st.subLevels, events := st.events, originSwitch := none,
      candidate := none, insideSublevel := false }

/-- `ACesiumGeoreference::_updateSublevelState`: if no valid camera exists
the pass is skipped and `false` returned; otherwise the streamed levels
are scanned for the closest in-radius candidate, every other previously
loaded sub-level is unloaded, and a not-yet-loaded candidate is jumped to
and loaded. -/
def updateSublevelState (levelDist : ℚ → ℚ → ℚ → ℚ) (cameraValid : Bool)
    (streamedNames : List String) (subs : List FCesiumSubLevel) :
    SublevelPassResult :=
  if !cameraValid then
    { subLevels := subs, events := [], originSwitch := none,
      candidate := none, insideSublevel := false }
  else
    finalizeSublevelPass
      (streamedNames.foldl (sublevelStep levelDist)
        { subLevels := subs, currentIdx := none, closest := dblMax,
          events := [] })

/-- `ACesiumGeoreference::Tick` (the editor-only debug helpers aside):
runs `_updateSublevelState` — applying the `_jumpToLevel` origin switch
through `_setGeoreferenceOrigin` when one happens —, stores its result
into `_insideSublevel`, then runs `_performOriginRebasing`.  Returns the
new actor state and the world-origin change requested this tick, if
any.  `Tick` does not call `CheckForNewSubLevels`. -/
def Tick (ext : ExternalMath) (levelDist : ℚ → ℚ → ℚ → ℚ)
    (isGame cameraValid : Bool) (streamedNames : List String)
    (cameraLocation : Vec3) (originLocation : IntVec3) (s : GeorefState) :
    GeorefState × Option IntVec3 :=
  let r := updateSublevelState levelDist cameraValid streamedNames
    s.cesiumSubLevels
  let s1 := { s with cesiumSubLevels := r.subLevels }
  let s2 :=
    match r.originSwitch with
    | some v => (setGeoreferenceOriginInternal ext v.x v.y v.z s1).1
    | none => s1
  let s3 := { s2 with insideSublevel := r.insideSublevel }
  (s3, performOriginRebasing s3 isGame cameraValid cameraLocation
    originLocation)

/-- `ACesiumGeoreference::TransformEcefToLongitudeLatitudeHeight`.
`cartesianToCartographic` is the external
`CesiumGeospatial::Ellipsoid::WGS84.cartesianToCartographic`, returning
longitude and latitude in radians; `toDegrees` is `glm::degrees`. -/
def TransformEcefToLongitudeLatitudeHeight
    (cartesianToCartographic : Vec3 → Option Vec3) (toDegrees : ℚ → ℚ)
    (ecef : Vec3) : Vec3 :=
  match cartesianToCartographic ecef with
  | none => ⟨0, 0, 0⟩
  | some llh => ⟨toDegrees llh.x, toDegrees llh.y, llh.z⟩

/-- The properties of `UCesiumWebMapTileServiceRasterOverlay` (including
`MaterialLayerKey` inherited from `UCesiumRasterOverlay`). -/
structure UCesiumWebMapTileServiceRasterOverlay where
  materialLayerKey : String
  url : String
  bUseUrlTemplate : Bool
  urlTemplate : String
  bNeedKey : Bool
  keyName : String
  keyValue : String
  layer : String
  tileMatrixSetID : String
  style : String
  bSpecifyZoomLevels : Bool
  minimumLevel : ℤ
  maximumLevel : ℤ
  subDomain : String
  tileMatrixLabels : String
deriving DecidableEq

/-- The external `Cesium3DTilesSelection::WebMapTileServiceRasterOverlayOptions`
struct, restricted to the fields `CreateOverlay` assigns. -/
structure WebMapTileServiceRasterOverlayOptions where
  minimumLevel : Option ℤ
  maximumLevel : Option ℤ
  urlTemplate : Option String
  token : Option (String × String)
  subdomains : Option (List String)
  tileMatrixLabels : Option (List String)
deriving DecidableEq

/-- The constructor arguments of the
`Cesium3DTilesSelection::WebMapTileServiceRasterOverlay` built by
`CreateOverlay`. -/
structure WmtsOverlayArgs where
  materialLayerKey : String
  url : String
  layer : String
  style : String
  tileMatrixSetID : String
  options : WebMapTileServiceRasterOverlayOptions
deriving DecidableEq

/-- `FString::ParseIntoArray` with a single-character delimiter and
`InCullEmpty = false`: an empty source string yields no elements,
otherwise the string is split keeping empty pieces. -/
def parseIntoArray (s : String) (delim : String) : List String :=
  if s = "" then [] else s.splitOn delim

/-- `UCesiumWebMapTileServiceRasterOverlay::CreateOverlay`.  `opts0` is the
default-constructed external options value, whose fields are overwritten
only where the source assigns them. -/
def CreateOverlay (opts0 : WebMapTileServiceRasterOverlayOptions)
    (c : UCesiumWebMapTileServiceRasterOverlay) : WmtsOverlayArgs :=
  let o1 :=
    if c.maximumLevel > c.minimumLevel ∧ c.bSpecifyZoomLevels = true then
      { opts0 with
          minimumLevel := some c.minimumLevel
          maximumLevel := some c.maximumLevel }
    else opts0
  let o2 :=
    if c.bUseUrlTemplate then { o1 with urlTemplate := some c.urlTemplate }
    else o1
  let o3 :=
    if c.bNeedKey then
      if c.keyName ≠ "" ∧ c.keyValue ≠ "" then
        { o2 with token := some (c.keyName, c.keyValue) }
      else o2
    else o2
  let subdomain := parseIntoArray c.subDomain ","
  let o4 :=
    if subdomain ≠ [] then { o3 with subdomains := some subdomain } else o3
  let tilelabel := parseIntoArray c.tileMatrixLabels ","
  let o5 :=
    if tilelabel ≠ [] then { o4 with tileMatrixLabels := some tilelabel }
    else o4
  { materialLayerKey := c.materialLayerKey
    url := c.url
    layer := c.layer
    style := c.style
    tileMatrixSetID := c.tileMatrixSetID
    options := o5 }

/-- A concrete instantiation of the external mathematics, used by the
witness theorems. -/
def trivExt : ExternalMath where
  eastNorthUpToFixedFrame := fun _ => 1
  affineInverse := fun m => m
  cartographicToCartesianDeg := fun a b c => ⟨a, b, c⟩
  scaleToCesium := 1
  unrealToOrFromCesium := 1
  scaleToUnrealWorld := 1

/-- A concrete actor state used by the witness theorems. -/
def baseState : GeorefState where
  originPlacement := EOriginPlacement.CartographicOrigin
  originLongitude := 0
  originLatitude := 0
  originHeight := 0
  keepWorldOriginNearCamera := true
  maximumWorldOriginDistanceFromCamera := 1000000
  originRebaseInsideSublevels := false
  cesiumSubLevels := []
  insideSublevel := false
  georeferencedObjects := []
  georeferencedToEcef := 1
  ecefToGeoreferenced := 1
  ueAbsToEcef := 1
  ecefToUeAbs := 1

/-- The centers contributing to the bounding-volume average: those of every
registered object that is valid, bounding-volume-ready and returns a
bounding volume, in registration order. -/
def eligibleCenters (objs : List GeoObject) : List Vec3 :=
  objs.filterMap
    (fun o => if o.valid && o.bvReady then o.boundingVolumeCenter else none)

/-- Position-wise agreement of two registries on their live entries: equal
length, equal liveness flags, and equal entries wherever the entry is
live.  Two registries related this way differ only in the payload of
stale (destroyed) entries. -/
def objsAgreeOnLive (as bs : List GeoObject) : Prop :=
  List.Forall₂ (fun a b => a.valid = b.valid ∧ (a.valid = true → a = b)) as bs

/-- The load-relevant configuration of a sub-level entry: everything except
the mutable `CurrentlyLoaded` flag.  The per-tick pass only ever mutates
the flag, so this projection is invariant under it. -/
def levelCore (l : FCesiumSubLevel) : String × ℚ × ℚ × ℚ × ℚ :=
  (l.levelName, l.levelLongitude, l.levelLatitude, l.levelHeight, l.loadRadius)

/-- The sub-level indices matched, in encounter order, by the host's
streamed-level names: for each streamed name, the first registered
sub-level with that name, when one exists. -/
def matchedIdx (subs : List FCesiumSubLevel) (streamedNames : List String) :
    List ℕ :=
  streamedNames.filterMap (fun nm => findLevelIdx nm subs)

/-- Viewer distance to the sub-level at index `i` (0 out of range). -/
def distAt (d : ℚ → ℚ → ℚ → ℚ) (subs : List FCesiumSubLevel) (i : ℕ) : ℚ :=
  match subs[i]? with
  | some l => d l.levelLongitude l.levelLatitude l.levelHeight
  | none => 0

/-- Whether the sub-level at index `i` is strictly within its own load
radius of the viewer. -/
def inRadiusAt (d : ℚ → ℚ → ℚ → ℚ) (subs : List FCesiumSubLevel) (i : ℕ) :
    Bool :=
  match subs[i]? with
  | some l => decide (d l.levelLongitude l.levelLatitude l.levelHeight <
      l.loadRadius)
  | none => false

/-- The `CurrentlyLoaded` flag of the sub-level at index `i` (false out of
range). -/
def loadedAt (subs : List FCesiumSubLevel) (i : ℕ) : Bool :=
  match subs[i]? with
  | some l => l.currentlyLoaded
  | none => false

/-- Loop invariant of the streamed-levels scan of `_updateSublevelState`,
relative to the initial sub-level array `subs0` and the list `pm` of
sub-level indices matched so far: the immutable part of the array is
unchanged; the running candidate is the first minimum-distance in-radius
index among `pm` (`List.argmin` breaks ties toward the first element);
`closestLevelDistance` tracks the candidate's distance; a sub-level is
still loaded exactly when it was loaded initially and has not been passed
over as a non-candidate; and the unload requests issued are exactly those
for initially-loaded matched non-candidates. -/
def passInv (d : ℚ → ℚ → ℚ → ℚ) (subs0 : List FCesiumSubLevel)
    (pm : List ℕ) (st : SublevelPassState) : Prop :=
  st.subLevels.map levelCore = subs0.map levelCore ∧
  st.currentIdx = List.argmin (distAt d subs0)
    (pm.filter (inRadiusAt d subs0)) ∧
  (st.currentIdx = none → st.closest = dblMax) ∧
  (∀ j, st.currentIdx = some j → st.closest = distAt d subs0 j) ∧
  (∀ i, loadedAt st.subLevels i = true ↔
    (loadedAt subs0 i = true ∧ (i ∉ pm ∨ st.currentIdx = some i))) ∧
  (∀ e : ℕ × Bool, e ∈ st.events ↔
    (e.2 = false ∧ e.1 ∈ pm ∧ loadedAt subs0 e.1 = true ∧
      st.currentIdx ≠ some e.1))

/-- Sub-level fixture for the witness of the proximity-selection theorem:
region A with radius 1000 and region B with radius 500. -/
def c2subs : List FCesiumSubLevel :=
  [⟨"A", 1, 0, 0, 1000, false⟩, ⟨"B", 2, 0, 0, 500, false⟩]

/-- Distance fixture: the viewer is 100 from region A and 50 from
region B, so both are within radius and B is closer. -/
def c2d : ℚ → ℚ → ℚ → ℚ := fun lon _ _ => if lon = 1 then 100 else 50

/-- C1: for every origin request, if `_insideSublevel` is true then
`SetGeoreferenceOrigin` returns without mutating the origin or any matrix
of the transform chain (the whole state is unchanged and no notification
happens); if the flag is false it stores the requested origin and rebuilds
the four-matrix transform chain. -/
theorem setGeoreferenceOrigin_insideSublevel_guard
    (ext : ExternalMath) (v : Vec3) (s : GeorefState) :
    (s.insideSublevel = true → SetGeoreferenceOrigin ext v s = (s, [])) ∧
    (s.insideSublevel = false →
      (SetGeoreferenceOrigin ext v s).1.originLongitude = v.x ∧
      (SetGeoreferenceOrigin ext v s).1.originLatitude = v.y ∧
      (SetGeoreferenceOrigin ext v s).1.originHeight = v.z ∧
      (SetGeoreferenceOrigin ext v s).1.georeferencedToEcef =
        computeGeoreferencedToEcef ext
          { s with originLongitude := v.x, originLatitude := v.y,
                   originHeight := v.z } ∧
      (SetGeoreferenceOrigin ext v s).1.ecefToGeoreferenced =
        ext.affineInverse ((SetGeoreferenceOrigin ext v s).1.georeferencedToEcef) ∧
      (SetGeoreferenceOrigin ext v s).1.ueAbsToEcef =
        (SetGeoreferenceOrigin ext v s).1.georeferencedToEcef *
          ext.scaleToCesium * ext.unrealToOrFromCesium ∧
      (SetGeoreferenceOrigin ext v s).1.ecefToUeAbs =
        ext.unrealToOrFromCesium * ext.scaleToUnrealWorld *
          (SetGeoreferenceOrigin ext v s).1.ecefToGeoreferenced) := by
  constructor
  · intro h
    simp [SetGeoreferenceOrigin, h]
  · intro h
    simp [SetGeoreferenceOrigin, h, setGeoreferenceOriginInternal,
      UpdateGeoreference]

/-- Witness for C1 at a concrete state with `_insideSublevel = true`. -/
theorem setGeoreferenceOrigin_insideSublevel_guard_witness :
    ({ baseState with insideSublevel := true } : GeorefState).insideSublevel
        = true ∧
    SetGeoreferenceOrigin trivExt ⟨1, 2, 3⟩
        { baseState with insideSublevel := true } =
      ({ baseState with insideSublevel := true }, []) :=
  ⟨rfl,
    (setGeoreferenceOrigin_insideSublevel_guard trivExt ⟨1, 2, 3⟩
      { baseState with insideSublevel := true }).1 rfl⟩

/-- C3: each axis of a rebasing shift is the clamped (saturated, never
wrapped) sum of the camera offset and the current floating-origin value:
for integer-valued camera offsets `clampedAdd` is exactly the
INT32-saturated sum; the result always lies in the INT32 range; the
(2,000,000, 0, 0) example produces exactly (2000000, 0, 0); and a sum
beyond `INT32_MAX` yields `INT32_MAX`. -/
theorem clampedAdd_saturation :
    (∀ (f : ℚ) (i : ℤ), f.den = 1 →
      clampedAdd f i = max int32Min (min int32Max (f.num + i))) ∧
    (∀ (f : ℚ) (i : ℤ),
      int32Min ≤ clampedAdd f i ∧ clampedAdd f i ≤ int32Max) ∧
    performOriginRebasing baseState true true ⟨2000000, 0, 0⟩ ⟨0, 0, 0⟩ =
      some ⟨2000000, 0, 0⟩ ∧
    clampedAdd 2000000000 2000000000 = int32Max := by
  refine ⟨?_, ?_, ?_, ?_⟩
  · intro f i h
    unfold clampedAdd ratTrunc
    rw [h]
    simp
  · intro f i
    exact ⟨le_max_left _ _, max_le (by decide) (min_le_left _ _)⟩
  · decide
  · decide

/-- Witness for C3 at the camera offset 2,000,000 and origin 0. -/
theorem clampedAdd_saturation_witness :
    ((2000000 : ℚ)).den = 1 ∧
    clampedAdd 2000000 0 =
      max int32Min (min int32Max ((2000000 : ℚ).num + 0)) :=
  ⟨rfl, clampedAdd_saturation.1 2000000 0 rfl⟩

/-- C4: whenever the transform chain is recomputed in `TrueOrigin` mode,
the resulting `georeferencedToEcef` matrix is exactly the identity. -/
theorem updateGeoreference_trueOrigin_identity (ext : ExternalMath)
    (s : GeorefState) (h : s.originPlacement = EOriginPlacement.TrueOrigin) :
    (UpdateGeoreference ext s).1.georeferencedToEcef = 1 := by
  simp [UpdateGeoreference, computeGeoreferencedToEcef, h]

/-- Witness for C4 at a concrete state in `TrueOrigin` mode. -/
theorem updateGeoreference_trueOrigin_identity_witness :
    ({ baseState with originPlacement := EOriginPlacement.TrueOrigin } :
        GeorefState).originPlacement = EOriginPlacement.TrueOrigin ∧
    (UpdateGeoreference trivExt
        { baseState with
            originPlacement := EOriginPlacement.TrueOrigin }).1.georeferencedToEcef
      = 1 :=
  ⟨rfl, updateGeoreference_trueOrigin_identity trivExt _ rfl⟩

/-- C6: registering an already-registered object leaves the registry (and
the whole state) unchanged and performs no notification pass; registering
a new object appends it once and triggers exactly one immediate
recomputation/notification pass over the updated registry. -/
theorem addGeoreferencedObject_idempotent (ext : ExternalMath)
    (obj : GeoObject) (s : GeorefState) :
    (s.georeferencedObjects.any (fun o => o.valid && o.oid == obj.oid) =
        true →
      AddGeoreferencedObject ext obj s = (s, [])) ∧
    (s.georeferencedObjects.any (fun o => o.valid && o.oid == obj.oid) =
        false →
      (AddGeoreferencedObject ext obj s).1.georeferencedObjects =
        s.georeferencedObjects ++ [obj] ∧
      (AddGeoreferencedObject ext obj s).2 =
        ((s.georeferencedObjects ++ [obj]).filter (fun o => o.valid)).map
          (fun o => o.oid)) := by
  constructor
  · intro h
    simp [AddGeoreferencedObject, h]
  · intro h
    simp [AddGeoreferencedObject, h, UpdateGeoreference]

/-- Witness for C6: re-registering the object with identity 7 is a no-op
with no notifications. -/
theorem addGeoreferencedObject_idempotent_witness :
    ({ baseState with
        georeferencedObjects := [⟨7, true, false, none⟩] } :
          GeorefState).georeferencedObjects.any
        (fun o => o.valid && o.oid == (⟨7, true, false, none⟩ :
          GeoObject).oid) = true ∧
    AddGeoreferencedObject trivExt ⟨7, true, false, none⟩
        { baseState with georeferencedObjects := [⟨7, true, false, none⟩] } =
      ({ baseState with georeferencedObjects := [⟨7, true, false, none⟩] },
        []) :=
  ⟨rfl,
    (addGeoreferencedObject_idempotent trivExt ⟨7, true, false, none⟩
      { baseState with
          georeferencedObjects := [⟨7, true, false, none⟩] }).1 rfl⟩

/-- C9: whenever the external cartesian-to-cartographic conversion yields
no result, `TransformEcefToLongitudeLatitudeHeight` returns exactly
(0, 0, 0). -/
theorem transformEcefToLlh_degenerate_returns_zero
    (cartesianToCartographic : Vec3 → Option Vec3) (toDegrees : ℚ → ℚ)
    (ecef : Vec3) (h : cartesianToCartographic ecef = none) :
    TransformEcefToLongitudeLatitudeHeight cartesianToCartographic toDegrees
      ecef = ⟨0, 0, 0⟩ := by
  simp [TransformEcefToLongitudeLatitudeHeight, h]

/-- Witness for C9 with an always-failing conversion. -/
theorem transformEcefToLlh_degenerate_returns_zero_witness :
    (fun (_ : Vec3) => (none : Option Vec3)) ⟨1, 2, 3⟩ = none ∧
    TransformEcefToLongitudeLatitudeHeight (fun _ => none) (fun q => q)
      ⟨1, 2, 3⟩ = ⟨0, 0, 0⟩ :=
  ⟨rfl,
    transformEcefToLlh_degenerate_returns_zero (fun _ => none) (fun q => q)
      ⟨1, 2, 3⟩ rfl⟩

/-- C10: `CreateOverlay` copies the configured zoom levels into the
overlay options exactly when `bSpecifyZoomLevels` is set and
`MaximumLevel` is strictly greater than `MinimumLevel`; otherwise — in
particular when the flag is set but `MaximumLevel ≤ MinimumLevel` — the
configured levels are silently ignored and the options keep their
default-constructed values. -/
theorem createOverlay_zoomLevel_copy
    (opts0 : WebMapTileServiceRasterOverlayOptions)
    (c : UCesiumWebMapTileServiceRasterOverlay) :
    ((c.bSpecifyZoomLevels = true ∧ c.maximumLevel > c.minimumLevel) →
      (CreateOverlay opts0 c).options.minimumLevel = some c.minimumLevel ∧
      (CreateOverlay opts0 c).options.maximumLevel = some c.maximumLevel) ∧
    ((c.bSpecifyZoomLevels = false ∨ c.maximumLevel ≤ c.minimumLevel) →
      (CreateOverlay opts0 c).options.minimumLevel = opts0.minimumLevel ∧
      (CreateOverlay opts0 c).options.maximumLevel = opts0.maximumLevel) := by
  unfold CreateOverlay
  constructor
  · rintro ⟨h1, h2⟩
    simp only [h1, h2, and_true, if_pos]
    split_ifs <;> simp
  · intro h
    have hc : ¬ (c.maximumLevel > c.minimumLevel ∧
        c.bSpecifyZoomLevels = true) := by
      rcases h with h | h
      · simp [h]
      · intro hh
        omega
    simp only [hc, if_neg, if_false]
    split_ifs <;> simp

/-- Witness for C10: with `bSpecifyZoomLevels` set but
`MaximumLevel = MinimumLevel = 5`, the configured zoom levels are
ignored and the options keep their defaults. -/
theorem createOverlay_zoomLevel_copy_witness :
    ((⟨"", "", false, "", false, "", "", "", "", "default", true, 5, 5,
        "", ""⟩ : UCesiumWebMapTileServiceRasterOverlay).bSpecifyZoomLevels
          = false ∨
      (⟨"", "", false, "", false, "", "", "", "", "default", true, 5, 5,
        "", ""⟩ : UCesiumWebMapTileServiceRasterOverlay).maximumLevel ≤
      (⟨"", "", false, "", false, "", "", "", "", "default", true, 5, 5,
        "", ""⟩ : UCesiumWebMapTileServiceRasterOverlay).minimumLevel) ∧
    (CreateOverlay ⟨none, none, none, none, none, none⟩
        ⟨"", "", false, "", false, "", "", "", "", "default", true, 5, 5,
          "", ""⟩).options.minimumLevel = none ∧
    (CreateOverlay ⟨none, none, none, none, none, none⟩
        ⟨"", "", false, "", false, "", "", "", "", "default", true, 5, 5,
          "", ""⟩).options.maximumLevel = none :=
  ⟨Or.inr (by decide),
    (createOverlay_zoomLevel_copy ⟨none, none, none, none, none, none⟩
      ⟨"", "", false, "", false, "", "", "", "", "default", true, 5, 5,
        "", ""⟩).2 (Or.inr (by decide))⟩

theorem vaddZeroRight (a : Vec3) : vadd a ⟨0, 0, 0⟩ = a := by
  cases a; simp [vadd]

theorem vaddZeroLeft (a : Vec3) : vadd ⟨0, 0, 0⟩ a = a := by
  cases a; simp [vadd]

theorem vaddAssoc (a b c : Vec3) : vadd (vadd a b) c = vadd a (vadd b c) := by
  cases a; cases b; cases c; simp [vadd, add_assoc]

theorem foldl_vadd (l : List Vec3) :
    ∀ a : Vec3, l.foldl vadd a = vadd a (vsum l) := by
  induction l with
  | nil => intro a; simp [vsum, vaddZeroRight]
  | cons c t ih =>
    intro a
    have hv : vsum (c :: t) = vadd c (vsum t) := by
      show List.foldl vadd (vadd ⟨0, 0, 0⟩ c) t = _
      rw [ih, vaddZeroLeft]
    rw [List.foldl_cons, ih, hv, vaddAssoc]

theorem vsum_cons (c : Vec3) (l : List Vec3) :
    vsum (c :: l) = vadd c (vsum l) := by
  show List.foldl vadd (vadd ⟨0, 0, 0⟩ c) l = _
  rw [foldl_vadd, vaddZeroLeft]

theorem bvFold_eq (objs : List GeoObject) :
    ∀ (a : Vec3) (n : ℕ),
      objs.foldl bvStep (a, n) =
        (vadd a (vsum (eligibleCenters objs)),
          n + (eligibleCenters objs).length) := by
  induction objs with
  | nil => intro a n; simp [eligibleCenters, vsum, vaddZeroRight]
  | cons o t ih =>
    intro a n
    rw [List.foldl_cons]
    by_cases hc : (o.valid && o.bvReady) = true
    · have hc' := hc
      simp only [Bool.and_eq_true] at hc'
      cases hbv : o.boundingVolumeCenter with
      | none =>
        have hstep : bvStep (a, n) o = (a, n) := by simp [bvStep, hc, hbv]
        have hel : eligibleCenters (o :: t) = eligibleCenters t := by
          simp [eligibleCenters, List.filterMap_cons, hc'.1, hc'.2, hbv]
        rw [hstep, ih, hel]
      | some c =>
        have hstep : bvStep (a, n) o = (vadd a c, n + 1) := by
          simp [bvStep, hc, hbv]
        have hel : eligibleCenters (o :: t) = c :: eligibleCenters t := by
          simp [eligibleCenters, List.filterMap_cons, hc'.1, hc'.2, hbv]
        rw [hstep, ih, hel, vsum_cons, ← vaddAssoc, List.length_cons]
        have hn : n + 1 + (eligibleCenters t).length =
            n + ((eligibleCenters t).length + 1) := by omega
        rw [hn]
    · have hstep : bvStep (a, n) o = (a, n) := by simp [bvStep, hc]
      have hel : eligibleCenters (o :: t) = eligibleCenters t := by
        simp only [Bool.and_eq_true, not_and] at hc
        simp only [eligibleCenters, List.filterMap_cons]
        by_cases hv : o.valid = true
        · simp [hv, hc hv]
        · simp [hv]
      rw [hstep, ih, hel]

theorem bvAccum_eq (objs : List GeoObject) :
    bvAccum objs =
      (vsum (eligibleCenters objs), (eligibleCenters objs).length) := by
  unfold bvAccum
  rw [bvFold_eq]
  simp [vaddZeroLeft]

/-- C8: in bounding-volume origin mode, the recomputed
`georeferencedToEcef` matrix is the east-north-up frame at the average of
the bounding-volume centers of the registered objects that are live,
ready and return a volume; with zero such objects the center used is
(0, 0, 0). -/
theorem updateGeoreference_boundingVolume_average (ext : ExternalMath)
    (s : GeorefState)
    (h : s.originPlacement = EOriginPlacement.BoundingVolumeOrigin) :
    (eligibleCenters s.georeferencedObjects ≠ [] →
      (UpdateGeoreference ext s).1.georeferencedToEcef =
        ext.eastNorthUpToFixedFrame
          (vdivNat (vsum (eligibleCenters s.georeferencedObjects))
            (eligibleCenters s.georeferencedObjects).length)) ∧
    (eligibleCenters s.georeferencedObjects = [] →
      (UpdateGeoreference ext s).1.georeferencedToEcef =
        ext.eastNorthUpToFixedFrame ⟨0, 0, 0⟩) := by
  have hacc := bvAccum_eq s.georeferencedObjects
  constructor
  · intro hne
    have hpos : 0 < (eligibleCenters s.georeferencedObjects).length :=
      List.length_pos.mpr hne
    simp [UpdateGeoreference, computeGeoreferencedToEcef, h, hacc, hpos]
  · intro he
    simp [UpdateGeoreference, computeGeoreferencedToEcef, h, hacc, he]

/-- Witness for C8: two eligible objects with centers (2,4,6) and
(4,8,10). -/
theorem updateGeoreference_boundingVolume_average_witness :
    ({ baseState with
        originPlacement := EOriginPlacement.BoundingVolumeOrigin,
        georeferencedObjects :=
          [⟨1, true, true, some ⟨2, 4, 6⟩⟩, ⟨2, true, true, some ⟨4, 8, 10⟩⟩] } :
        GeorefState).originPlacement = EOriginPlacement.BoundingVolumeOrigin ∧
    eligibleCenters
        [⟨1, true, true, some ⟨2, 4, 6⟩⟩, ⟨2, true, true, some ⟨4, 8, 10⟩⟩] ≠
      [] ∧
    (UpdateGeoreference trivExt
        { baseState with
            originPlacement := EOriginPlacement.BoundingVolumeOrigin,
            georeferencedObjects :=
              [⟨1, true, true, some ⟨2, 4, 6⟩⟩,
                ⟨2, true, true, some ⟨4, 8, 10⟩⟩] }).1.georeferencedToEcef =
      trivExt.eastNorthUpToFixedFrame
        (vdivNat
          (vsum (eligibleCenters
            [⟨1, true, true, some ⟨2, 4, 6⟩⟩,
              ⟨2, true, true, some ⟨4, 8, 10⟩⟩]))
          (eligibleCenters
            [⟨1, true, true, some ⟨2, 4, 6⟩⟩,
              ⟨2, true, true, some ⟨4, 8, 10⟩⟩]).length) :=
  ⟨rfl, by decide,
    (updateGeoreference_boundingVolume_average trivExt
      { baseState with
          originPlacement := EOriginPlacement.BoundingVolumeOrigin,
          georeferencedObjects :=
            [⟨1, true, true, some ⟨2, 4, 6⟩⟩,
              ⟨2, true, true, some ⟨4, 8, 10⟩⟩] } rfl).1 (by decide)⟩

theorem agree_filter_map {as bs : List GeoObject}
    (h : objsAgreeOnLive as bs) :
    (bs.filter (fun o => o.valid)).map (fun o => o.oid) =
      (as.filter (fun o => o.valid)).map (fun o => o.oid) := by
  induction h with
  | nil => rfl
  | @cons a b as bs h₁ h₂ ih =>
    obtain ⟨hv, he⟩ := h₁
    cases hav : a.valid with
    | true =>
      have hb : b.valid = true := by rw [← hv, hav]
      have hab : a = b := he hav
      subst hab
      simp [List.filter_cons, hav, ih]
    | false =>
      have hb : b.valid = false := by rw [← hv, hav]
      simp [List.filter_cons, hav, hb, ih]

theorem agree_bvFold {as bs : List GeoObject} (h : objsAgreeOnLive as bs) :
    ∀ acc : Vec3 × ℕ, bs.foldl bvStep acc = as.foldl bvStep acc := by
  induction h with
  | nil => intro acc; rfl
  | @cons a b as bs h₁ h₂ ih =>
    intro acc
    obtain ⟨hv, he⟩ := h₁
    rw [List.foldl_cons, List.foldl_cons]
    cases hav : a.valid with
    | true =>
      have hab : a = b := he hav
      subst hab
      exact ih _
    | false =>
      have hb : b.valid = false := by rw [← hv, hav]
      have hsa : bvStep acc a = acc := by simp [bvStep, hav]
      have hsb : bvStep acc b = acc := by simp [bvStep, hb]
      rw [hsa, hsb]
      exact ih _

theorem agree_bvAccum {as bs : List GeoObject} (h : objsAgreeOnLive as bs) :
    bvAccum bs = bvAccum as :=
  agree_bvFold h _

/-- C7: every transform-chain recomputation (in particular every
successful origin set) notifies exactly the live registered objects, in
registration order; registry entries whose object has been destroyed are
skipped without being dereferenced — replacing the payload of every stale
entry changes neither the notification sequence nor the recomputed
transform. -/
theorem updateGeoreference_skips_stale_notifies_in_order
    (ext : ExternalMath) (s : GeorefState) :
    ((UpdateGeoreference ext s).2 =
      (s.georeferencedObjects.filter (fun o => o.valid)).map
        (fun o => o.oid)) ∧
    (s.insideSublevel = false → ∀ v : Vec3,
      (SetGeoreferenceOrigin ext v s).2 =
        (s.georeferencedObjects.filter (fun o => o.valid)).map
          (fun o => o.oid)) ∧
    (∀ bs : List GeoObject, objsAgreeOnLive s.georeferencedObjects bs →
      (UpdateGeoreference ext { s with georeferencedObjects := bs }).2 =
        (UpdateGeoreference ext s).2 ∧
      (UpdateGeoreference ext
          { s with georeferencedObjects := bs }).1.georeferencedToEcef =
        (UpdateGeoreference ext s).1.georeferencedToEcef) := by
  refine ⟨rfl, ?_, ?_⟩
  · intro h v
    simp [SetGeoreferenceOrigin, h, setGeoreferenceOriginInternal,
      UpdateGeoreference]
  · intro bs hagree
    constructor
    · simp only [UpdateGeoreference]
      exact agree_filter_map hagree
    · simp only [UpdateGeoreference, computeGeoreferencedToEcef,
        agree_bvAccum hagree]

/-- Witness for C7: a registry whose second entry is stale; replacing the
stale entry's payload leaves the notification sequence unchanged. -/
theorem updateGeoreference_skips_stale_notifies_in_order_witness :
    objsAgreeOnLive
        [⟨1, true, true, some ⟨1, 1, 1⟩⟩, ⟨2, false, true, some ⟨9, 9, 9⟩⟩]
        [⟨1, true, true, some ⟨1, 1, 1⟩⟩, ⟨5, false, false, none⟩] ∧
    (UpdateGeoreference trivExt
        { baseState with
            georeferencedObjects :=
              [⟨1, true, true, some ⟨1, 1, 1⟩⟩,
                ⟨5, false, false, none⟩] }).2 =
      (UpdateGeoreference trivExt
        { baseState with
            georeferencedObjects :=
              [⟨1, true, true, some ⟨1, 1, 1⟩⟩,
                ⟨2, false, true, some ⟨9, 9, 9⟩⟩] }).2 := by
  have hagree : objsAgreeOnLive
      [⟨1, true, true, some ⟨1, 1, 1⟩⟩, ⟨2, false, true, some ⟨9, 9, 9⟩⟩]
      [⟨1, true, true, some ⟨1, 1, 1⟩⟩, ⟨5, false, false, none⟩] :=
    .cons ⟨rfl, fun _ => rfl⟩ (.cons ⟨rfl, fun hh => nomatch hh⟩ .nil)
  exact ⟨hagree,
    ((updateGeoreference_skips_stale_notifies_in_order trivExt
      { baseState with
          georeferencedObjects :=
            [⟨1, true, true, some ⟨1, 1, 1⟩⟩,
              ⟨2, false, true, some ⟨9, 9, 9⟩⟩] }).2.2 _ hagree).1⟩

/-- Counterexample to C5: `Tick` does not invoke `CheckForNewSubLevels`.
At a state with no registered sub-levels and the host identifier
"NewLevel" available, a full external tick creates no sub-level at all —
contradicting the claim that on every external tick an unmatched host
identifier causes a new SubLevel to be created. -/
theorem tick_does_not_discover_sublevels_counterexample :
    baseState.cesiumSubLevels = [] ∧
    (Tick trivExt (fun _ _ _ => 0) true true ["NewLevel"] ⟨0, 0, 0⟩
        ⟨0, 0, 0⟩ baseState).1.cesiumSubLevels = [] ∧
    ¬ ∃ l ∈ (Tick trivExt (fun _ _ _ => 0) true true ["NewLevel"] ⟨0, 0, 0⟩
        ⟨0, 0, 0⟩ baseState).1.cesiumSubLevels, l.levelName = "NewLevel" :=
  ⟨rfl, by decide, by decide⟩

theorem discover_fold_spec (lon lat hgt : ℚ) :
    ∀ (names : List String) (subs : List FCesiumSubLevel),
      ∃ added : List FCesiumSubLevel,
        names.foldl
          (fun subs nm =>
            if subs.any (fun l => l.levelName == nm) then subs
            else subs ++ [⟨nm, lon, lat, hgt, 1000, false⟩])
          subs = subs ++ added ∧
        (∀ l ∈ added, l.levelLongitude = lon ∧ l.levelLatitude = lat ∧
          l.levelHeight = hgt ∧ l.loadRadius = 1000 ∧
          l.currentlyLoaded = false ∧ l.levelName ∈ names) ∧
        (∀ nm ∈ names, ∃ l ∈ subs ++ added, l.levelName = nm) := by
  intro names
  induction names with
  | nil =>
    intro subs
    exact ⟨[], by simp, by simp, by simp⟩
  | cons nm rest ih =>
    intro subs
    rw [List.foldl_cons]
    by_cases hfound : subs.any (fun l => l.levelName == nm) = true
    · rw [if_pos hfound]
      obtain ⟨added, he, hp, hm⟩ := ih subs
      refine ⟨added, he, ?_, ?_⟩
      · intro l hl
        obtain ⟨h1, h2, h3, h4, h5, h6⟩ := hp l hl
        exact ⟨h1, h2, h3, h4, h5, List.mem_cons_of_mem _ h6⟩
      · intro nm' hnm'
        rcases List.mem_cons.mp hnm' with h | h
        · subst h
          obtain ⟨l, hl, hl2⟩ := List.any_eq_true.mp hfound
          exact ⟨l, List.mem_append_left _ hl, by simpa using hl2⟩
        · exact hm nm' h
    · rw [if_neg hfound]
      obtain ⟨added, he, hp, hm⟩ :=
        ih (subs ++ [⟨nm, lon, lat, hgt, 1000, false⟩])
      refine ⟨⟨nm, lon, lat, hgt, 1000, false⟩ :: added, ?_, ?_, ?_⟩
      · rw [he, List.append_assoc]
        rfl
      · intro l hl
        rcases List.mem_cons.mp hl with h | h
        · subst h
          exact ⟨rfl, rfl, rfl, rfl, rfl, List.mem_cons_self _ _⟩
        · obtain ⟨h1, h2, h3, h4, h5, h6⟩ := hp l h
          exact ⟨h1, h2, h3, h4, h5, List.mem_cons_of_mem _ h6⟩
      · intro nm' hnm'
        rcases List.mem_cons.mp hnm' with h | h
        · subst h
          exact ⟨⟨nm', lon, lat, hgt, 1000, false⟩, by simp, rfl⟩
        · obtain ⟨l, hl, hn⟩ := hm nm' h
          refine ⟨l, ?_, hn⟩
          have hsplit : subs ++ (⟨nm, lon, lat, hgt, 1000, false⟩ :: added) =
              (subs ++ [⟨nm, lon, lat, hgt, 1000, false⟩]) ++ added := by
            simp
          rw [hsplit]
          exact hl

/-- C5 (amended): whenever `CheckForNewSubLevels` runs (it is a public
method invoked externally, not from `Tick`), every host region identifier
with no matching registered SubLevel causes a new SubLevel to be created
whose origin equals the current global georeference origin, whose load
radius is the default 1000, and whose loaded flag is false; discovery
only appends — it never removes or modifies existing SubLevels, and it
does not change the global origin. -/
theorem checkForNewSubLevels_discovery (streamedNames : List String)
    (s : GeorefState) :
    ∃ added : List FCesiumSubLevel,
      (CheckForNewSubLevels streamedNames s).cesiumSubLevels =
        s.cesiumSubLevels ++ added ∧
      (∀ l ∈ added, l.levelLongitude = s.originLongitude ∧
        l.levelLatitude = s.originLatitude ∧
        l.levelHeight = s.originHeight ∧ l.loadRadius = 1000 ∧
        l.currentlyLoaded = false ∧ l.levelName ∈ streamedNames) ∧
      (∀ nm ∈ streamedNames,
        ∃ l ∈ (CheckForNewSubLevels streamedNames s).cesiumSubLevels,
          l.levelName = nm) ∧
      (CheckForNewSubLevels streamedNames s).originLongitude =
        s.originLongitude ∧
      (CheckForNewSubLevels streamedNames s).originLatitude =
        s.originLatitude ∧
      (CheckForNewSubLevels streamedNames s).originHeight = s.originHeight := by
  obtain ⟨added, he, hp, hm⟩ :=
    discover_fold_spec s.originLongitude s.originLatitude s.originHeight
      streamedNames s.cesiumSubLevels
  refine ⟨added, ?_, hp, ?_, rfl, rfl, rfl⟩
  · simpa [CheckForNewSubLevels] using he
  · intro nm hnm
    obtain ⟨l, hl, hn⟩ := hm nm hnm
    refine ⟨l, ?_, hn⟩
    have hc : (CheckForNewSubLevels streamedNames s).cesiumSubLevels =
        s.cesiumSubLevels ++ added := by
      simpa [CheckForNewSubLevels] using he
    rw [hc]
    exact hl

theorem levelCore_fields {a b : FCesiumSubLevel} (h : levelCore a = levelCore b) :
    a.levelName = b.levelName ∧ a.levelLongitude = b.levelLongitude ∧
    a.levelLatitude = b.levelLatitude ∧ a.levelHeight = b.levelHeight ∧
    a.loadRadius = b.loadRadius := by
  simp only [levelCore, Prod.mk.injEq] at h
  exact h

theorem findLevelIdx_congr :
    ∀ {as bs : List FCesiumSubLevel},
      as.map levelCore = bs.map levelCore →
      ∀ nm, findLevelIdx nm as = findLevelIdx nm bs := by
  intro as
  induction as with
  | nil =>
    intro bs h nm
    cases bs with
    | nil => rfl
    | cons b u => simp at h
  | cons a t ih =>
    intro bs h nm
    cases bs with
    | nil => simp at h
    | cons b u =>
      simp only [List.map_cons, List.cons.injEq] at h
      have hn : a.levelName = b.levelName := (levelCore_fields h.1).1
      unfold findLevelIdx
      rw [hn, ih h.2]

theorem findLevelIdx_some :
    ∀ {subs : List FCesiumSubLevel} {nm : String} {i : ℕ},
      findLevelIdx nm subs = some i →
      ∃ l, subs[i]? = some l ∧ l.levelName = nm := by
  intro subs
  induction subs with
  | nil => intro nm i h; simp [findLevelIdx] at h
  | cons a t ih =>
    intro nm i h
    unfold findLevelIdx at h
    by_cases hn : a.levelName = nm
    · rw [if_pos hn] at h
      cases h
      exact ⟨a, by simp, hn⟩
    · rw [if_neg hn] at h
      cases hj : findLevelIdx nm t with
      | none => rw [hj] at h; simp at h
      | some j =>
        rw [hj] at h
        simp only [Option.map_some'] at h
        obtain ⟨l, hl, hlnm⟩ := ih hj
        cases h
        exact ⟨l, by simpa using hl, hlnm⟩

theorem map_core_get {as bs : List FCesiumSubLevel}
    (h : as.map levelCore = bs.map levelCore) (i : ℕ) :
    (as[i]?).map levelCore = (bs[i]?).map levelCore := by
  rw [← List.getElem?_map, ← List.getElem?_map, h]

theorem map_core_length {as bs : List FCesiumSubLevel}
    (h : as.map levelCore = bs.map levelCore) : as.length = bs.length := by
  have := congrArg List.length h
  simpa using this

theorem distAt_congr (d : ℚ → ℚ → ℚ → ℚ) {as bs : List FCesiumSubLevel}
    (h : as.map levelCore = bs.map levelCore) (i : ℕ) :
    distAt d as i = distAt d bs i := by
  have hg := map_core_get h i
  unfold distAt
  cases has : as[i]? with
  | none =>
    cases hbs : bs[i]? with
    | none => rfl
    | some b => rw [has, hbs] at hg; simp at hg
  | some a =>
    cases hbs : bs[i]? with
    | none => rw [has, hbs] at hg; simp at hg
    | some b =>
      rw [has, hbs] at hg
      simp only [Option.map_some', Option.some.injEq] at hg
      obtain ⟨_, h2, h3, h4, _⟩ := levelCore_fields hg
      simp [h2, h3, h4]

theorem inRadiusAt_congr (d : ℚ → ℚ → ℚ → ℚ) {as bs : List FCesiumSubLevel}
    (h : as.map levelCore = bs.map levelCore) (i : ℕ) :
    inRadiusAt d as i = inRadiusAt d bs i := by
  have hg := map_core_get h i
  unfold inRadiusAt
  cases has : as[i]? with
  | none =>
    cases hbs : bs[i]? with
    | none => rfl
    | some b => rw [has, hbs] at hg; simp at hg
  | some a =>
    cases hbs : bs[i]? with
    | none => rw [has, hbs] at hg; simp at hg
    | some b =>
      rw [has, hbs] at hg
      simp only [Option.map_some', Option.some.injEq] at hg
      obtain ⟨_, h2, h3, h4, h5⟩ := levelCore_fields hg
      simp [h2, h3, h4, h5]

theorem list_set_same {α : Type} :
    ∀ (l : List α) (i : ℕ) (a : α), l[i]? = some a → l.set i a = l := by
  intro l
  induction l with
  | nil => intro i a h; simp at h
  | cons x t ih =>
    intro i a h
    cases i with
    | zero =>
      simp only [List.getElem?_cons_zero, Option.some.injEq] at h
      rw [← h]
      rfl
    | succ n =>
      simp only [List.getElem?_cons_succ] at h
      simp only [List.set]
      rw [ih n a h]

theorem map_core_set_flag {subs : List FCesiumSubLevel} {j : ℕ}
    {l : FCesiumSubLevel} (h : subs[j]? = some l) (b : Bool) :
    (subs.set j { l with currentlyLoaded := b }).map levelCore =
      subs.map levelCore := by
  rw [List.map_set]
  have hcore : levelCore { l with currentlyLoaded := b } = levelCore l := rfl
  rw [hcore]
  apply list_set_same
  rw [List.getElem?_map, h]
  rfl

theorem loadedAt_set_self {subs : List FCesiumSubLevel} {j : ℕ}
    {l' : FCesiumSubLevel} (h : j < subs.length) :
    loadedAt (subs.set j l') j = l'.currentlyLoaded := by
  unfold loadedAt
  rw [List.getElem?_set_eq_of_lt _ h]

theorem loadedAt_set_ne {subs : List FCesiumSubLevel} {j k : ℕ}
    {l' : FCesiumSubLevel} (h : j ≠ k) :
    loadedAt (subs.set j l') k = loadedAt subs k := by
  unfold loadedAt
  rw [List.getElem?_set_ne h]

theorem inRadiusAt_some {d : ℚ → ℚ → ℚ → ℚ} {subs : List FCesiumSubLevel}
    {i : ℕ} (h : inRadiusAt d subs i = true) :
    ∃ l, subs[i]? = some l ∧
      d l.levelLongitude l.levelLatitude l.levelHeight < l.loadRadius := by
  unfold inRadiusAt at h
  cases hs : subs[i]? with
  | none => rw [hs] at h; simp at h
  | some l =>
    rw [hs] at h
    exact ⟨l, rfl, of_decide_eq_true h⟩

theorem sublevelStep_inv (d : ℚ → ℚ → ℚ → ℚ) (subs0 : List FCesiumSubLevel)
    (hb : ∀ i, distAt d subs0 i < dblMax)
    (pm : List ℕ) (st : SublevelPassState) (nm : String) (i : ℕ)
    (hf : findLevelIdx nm subs0 = some i) (hipm : i ∉ pm)
    (hinv : passInv d subs0 pm st) :
    passInv d subs0 (pm ++ [i]) (sublevelStep d st nm) := by
  obtain ⟨hcore, hcand, hclosn, hcloss, hload, hev⟩ := hinv
  have hlen : st.subLevels.length = subs0.length := map_core_length hcore
  obtain ⟨l0, hl0, hl0nm⟩ := findLevelIdx_some hf
  have hi_lt : i < subs0.length := (List.getElem?_eq_some.mp hl0).1
  have hfi : findLevelIdx nm st.subLevels = some i := by
    rw [findLevelIdx_congr hcore nm, hf]
  have hmc := map_core_get hcore i
  obtain ⟨l, hl, hlcore⟩ :
      ∃ l, st.subLevels[i]? = some l ∧ levelCore l = levelCore l0 := by
    cases hsl : st.subLevels[i]? with
    | none => rw [hsl, hl0] at hmc; simp at hmc
    | some l =>
      rw [hsl, hl0] at hmc
      simp only [Option.map_some', Option.some.injEq] at hmc
      exact ⟨l, rfl, hmc⟩
  obtain ⟨-, hlon, hlat, hhgt, hrad⟩ := levelCore_fields hlcore
  have hdl : d l.levelLongitude l.levelLatitude l.levelHeight =
      distAt d subs0 i := by
    simp [distAt, hl0, hlon, hlat, hhgt]
  have hRi_iff : inRadiusAt d subs0 i =
      decide (distAt d subs0 i < l0.loadRadius) := by
    simp [inRadiusAt, distAt, hl0]
  have hcand_mem : ∀ j, st.currentIdx = some j →
      j ∈ pm ∧ inRadiusAt d subs0 j = true := by
    intro j hj
    have hjm : j ∈ List.argmin (distAt d subs0)
        (pm.filter (inRadiusAt d subs0)) :=
      Option.mem_def.mpr (hcand ▸ hj).symm.symm
    exact List.mem_filter.mp (List.argmin_mem hjm)
  simp only [sublevelStep, hfi, hl]
  by_cases hcond : d l.levelLongitude l.levelLatitude l.levelHeight <
      l.loadRadius ∧
      d l.levelLongitude l.levelLatitude l.levelHeight < st.closest
  · rw [if_pos hcond]
    have hDi_rad : distAt d subs0 i < l0.loadRadius := by
      rw [← hdl, ← hrad]; exact hcond.1
    have hRi : inRadiusAt d subs0 i = true := by
      rw [hRi_iff]; exact decide_eq_true hDi_rad
    have hfilter : (pm ++ [i]).filter (inRadiusAt d subs0) =
        pm.filter (inRadiusAt d subs0) ++ [i] := by
      rw [List.filter_append]; simp [hRi]
    cases hcI : st.currentIdx with
    | none =>
      simp only [hcI]
      have hargmin : List.argmin (distAt d subs0)
          ((pm ++ [i]).filter (inRadiusAt d subs0)) = some i := by
        rw [hfilter, List.argmin_concat, ← hcand, hcI]
      refine ⟨hcore, hargmin.symm, ?_, ?_, ?_, ?_⟩
      · intro h; simp at h
      · intro j' hj'
        simp only [Option.some.injEq] at hj'
        rw [← hj', hdl]
      · intro k
        have hold := hload k
        rw [hcI] at hold
        rw [hold]
        by_cases hk : k = i
        · subst hk
          simp [List.mem_append, hipm]
        · simp [List.mem_append, hk, Ne.symm hk]
      · intro e
        have holde := hev e
        rw [hcI] at holde
        rw [holde]
        by_cases hk : e.1 = i
        · rw [hk]
          simp [List.mem_append, hipm]
        · simp [List.mem_append, hk]
          exact fun _ _ _ h => hk h.symm
    | some j =>
      have hclos := hcloss j hcI
      have hDij : distAt d subs0 i < distAt d subs0 j := by
        have h2 := hcond.2
        rw [hdl, hclos] at h2
        exact h2
      obtain ⟨hjpm, hRj⟩ := hcand_mem j hcI
      obtain ⟨lj, hlj0, hljrad⟩ := inRadiusAt_some hRj
      have hj_lt : j < subs0.length := (List.getElem?_eq_some.mp hlj0).1
      have hmcj := map_core_get hcore j
      obtain ⟨cj, hcj, hcjcore⟩ :
          ∃ cj, st.subLevels[j]? = some cj ∧ levelCore cj = levelCore lj := by
        cases hsl : st.subLevels[j]? with
        | none => rw [hsl, hlj0] at hmcj; simp at hmcj
        | some cj =>
          rw [hsl, hlj0] at hmcj
          simp only [Option.map_some', Option.some.injEq] at hmcj
          exact ⟨cj, rfl, hmcj⟩
      have hij : i ≠ j := fun h => hipm (h ▸ hjpm)
      have hargmin : List.argmin (distAt d subs0)
          ((pm ++ [i]).filter (inRadiusAt d subs0)) = some i := by
        rw [hfilter, List.argmin_concat, ← hcand, hcI]
        simp [hDij]
      simp only [hcI, hcj]
      by_cases hld : cj.currentlyLoaded = true
      · rw [if_pos hld]
        have hL0j : loadedAt subs0 j = true := by
          have h1 : loadedAt st.subLevels j = true := by
            unfold loadedAt; rw [hcj]; exact hld
          exact ((hload j).mp h1).1
        refine ⟨(map_core_set_flag hcj false).trans hcore, hargmin.symm,
          ?_, ?_, ?_, ?_⟩
        · intro h; simp at h
        · intro j' hj'
          simp only [Option.some.injEq] at hj'
          rw [← hj', hdl]
        · intro k
          by_cases hk : k = j
          · subst hk
            have hsj : loadedAt
                (st.subLevels.set k { cj with currentlyLoaded := false }) k =
                false := by
              rw [loadedAt_set_self (hlen ▸ hj_lt)]
            rw [hsj]
            simp [List.mem_append, hjpm, hij]
          · rw [loadedAt_set_ne (Ne.symm hk)]
            have hold := hload k
            rw [hcI] at hold
            rw [hold]
            by_cases hki : k = i
            · subst hki
              simp [List.mem_append, hipm, (fun h : j = k => hij h.symm)]
            · simp [List.mem_append, hki]
              intro _
              constructor
              · rintro (h | h)
                · exact Or.inl h
                · exact absurd h.symm hk
              · rintro (h | h)
                · exact Or.inl h
                · exact absurd h.symm hki
        · intro e
          constructor
          · intro he
            rcases List.mem_append.mp he with h | h
            · have hh := (hev e).mp h
              refine ⟨hh.1, List.mem_append_left _ hh.2.1, hh.2.2.1, ?_⟩
              intro hcon
              simp only [Option.some.injEq] at hcon
              exact hipm (hcon ▸ hh.2.1)
            · have he2 : e = (j, false) := by simpa using h
              subst he2
              refine ⟨rfl, List.mem_append_left _ hjpm, hL0j, ?_⟩
              simp [hij]
          · rintro ⟨he2, he1, heL, hene⟩
            rcases List.mem_append.mp he1 with h | h
            · by_cases hej : e.1 = j
              · have : e = (j, false) := by cases e; simp_all
                rw [this]
                simp
              · apply List.mem_append_left
                apply (hev e).mpr
                refine ⟨he2, h, heL, ?_⟩
                rw [hcI]
                intro hc
                simp only [Option.some.injEq] at hc
                exact hej hc.symm
            · exfalso
              have hh : e.1 = i := by simpa using h
              exact hene (by rw [hh])
      · rw [if_neg hld]
        have hL0j : loadedAt subs0 j = false := by
          by_contra hcon
          have hcon' : loadedAt subs0 j = true := by
            simpa using hcon
          have h1 : loadedAt st.subLevels j = true :=
            (hload j).mpr ⟨hcon', Or.inr hcI⟩
          have h2 : loadedAt st.subLevels j = cj.currentlyLoaded := by
            unfold loadedAt; rw [hcj]
          rw [h2] at h1
          exact hld h1
        refine ⟨hcore, hargmin.symm, ?_, ?_, ?_, ?_⟩
        · intro h; simp at h
        · intro j' hj'
          simp only [Option.some.injEq] at hj'
          rw [← hj', hdl]
        · intro k
          have hold := hload k
          rw [hcI] at hold
          rw [hold]
          by_cases hk : k = j
          · subst hk
            simp [hL0j]
          · by_cases hki : k = i
            · subst hki
              simp [List.mem_append, hipm, (fun h : j = k => hij h.symm)]
            · simp [List.mem_append, hki]
              intro _
              constructor
              · rintro (h | h)
                · exact Or.inl h
                · exact absurd h.symm hk
              · rintro (h | h)
                · exact Or.inl h
                · exact absurd h.symm hki
        · intro e
          have holde := hev e
          rw [hcI] at holde
          rw [holde]
          constructor
          · rintro ⟨he2, he1, heL, hene⟩
            refine ⟨he2, List.mem_append_left _ he1, heL, ?_⟩
            intro hc
            simp only [Option.some.injEq] at hc
            exact hipm (hc ▸ he1)
          · rintro ⟨he2, he1, heL, hene⟩
            rcases List.mem_append.mp he1 with h | h
            · refine ⟨he2, h, heL, ?_⟩
              intro hc
              simp only [Option.some.injEq] at hc
              rw [← hc] at heL
              rw [hL0j] at heL
              cases heL
            · exfalso
              have hh : e.1 = i := by simpa using h
              exact hene (by rw [hh])
  · rw [if_neg hcond]
    have hcand' : st.currentIdx = List.argmin (distAt d subs0)
        ((pm ++ [i]).filter (inRadiusAt d subs0)) := by
      rw [List.filter_append]
      by_cases hRi : inRadiusAt d subs0 i = true
      · have hDi_rad : distAt d subs0 i < l0.loadRadius := by
          rw [hRi_iff] at hRi
          exact of_decide_eq_true hRi
        have hdl_rad : d l.levelLongitude l.levelLatitude l.levelHeight <
            l.loadRadius := by
          rw [hdl, hrad]; exact hDi_rad
        have hnotclos : ¬ d l.levelLongitude l.levelLatitude l.levelHeight <
            st.closest := fun hcl => hcond ⟨hdl_rad, hcl⟩
        cases hcI : st.currentIdx with
        | none =>
          exfalso
          apply hnotclos
          rw [hclosn hcI, hdl]
          exact hb i
        | some j =>
          have hclos := hcloss j hcI
          have hji : ¬ distAt d subs0 i < distAt d subs0 j := by
            intro hcon
            apply hnotclos
            rw [hdl, hclos]
            exact hcon
          have hfi2 : List.filter (inRadiusAt d subs0) [i] = [i] := by
            simp [hRi]
          rw [hfi2, List.argmin_concat, ← hcand, hcI]
          simp [hji]
      · have hRi' : inRadiusAt d subs0 i = false := by simpa using hRi
        have hfi2 : List.filter (inRadiusAt d subs0) [i] = [] := by
          simp [hRi']
        rw [hfi2, List.append_nil, ← hcand]
    have hcIi : st.currentIdx ≠ some i := fun hc => hipm (hcand_mem i hc).1
    by_cases hld : l.currentlyLoaded = true
    · rw [if_pos hld]
      have hL0i : loadedAt subs0 i = true := by
        have h1 : loadedAt st.subLevels i = true := by
          unfold loadedAt; rw [hl]; exact hld
        exact ((hload i).mp h1).1
      refine ⟨(map_core_set_flag hl false).trans hcore, hcand', hclosn,
        hcloss, ?_, ?_⟩
      · intro k
        by_cases hk : k = i
        · subst hk
          rw [loadedAt_set_self (hlen ▸ hi_lt)]
          simp [List.mem_append, hcIi]
        · rw [loadedAt_set_ne (Ne.symm hk)]
          rw [hload k]
          simp [List.mem_append, hk]
      · intro e
        constructor
        · intro he
          rcases List.mem_append.mp he with h | h
          · have hh := (hev e).mp h
            exact ⟨hh.1, List.mem_append_left _ hh.2.1, hh.2.2.1, hh.2.2.2⟩
          · have he2 : e = (i, false) := by simpa using h
            subst he2
            exact ⟨rfl, by simp, hL0i, hcIi⟩
        · rintro ⟨he2, he1, heL, hene⟩
          rcases List.mem_append.mp he1 with h | h
          · exact List.mem_append_left _ ((hev e).mpr ⟨he2, h, heL, hene⟩)
          · have hh : e.1 = i := by simpa using h
            have he3 : e = (i, false) := by cases e; simp_all
            rw [he3]
            simp
    · rw [if_neg hld]
      have hL0i : loadedAt subs0 i = false := by
        by_contra hcon
        have hcon' : loadedAt subs0 i = true := by simpa using hcon
        have h1 : loadedAt st.subLevels i = true :=
          (hload i).mpr ⟨hcon', Or.inl hipm⟩
        have h2 : loadedAt st.subLevels i = l.currentlyLoaded := by
          unfold loadedAt; rw [hl]
        rw [h2] at h1
        exact hld h1
      refine ⟨hcore, hcand', hclosn, hcloss, ?_, ?_⟩
      · intro k
        rw [hload k]
        by_cases hk : k = i
        · subst hk
          simp [hL0i]
        · simp [List.mem_append, hk]
      · intro e
        rw [hev e]
        constructor
        · rintro ⟨he2, he1, heL, hene⟩
          exact ⟨he2, List.mem_append_left _ he1, heL, hene⟩
        · rintro ⟨he2, he1, heL, hene⟩
          rcases List.mem_append.mp he1 with h | h
          · exact ⟨he2, h, heL, hene⟩
          · exfalso
            have hh : e.1 = i := by simpa using h
            rw [hh, hL0i] at heL
            cases heL

theorem passInv_init (d : ℚ → ℚ → ℚ → ℚ) (subs0 : List FCesiumSubLevel) :
    passInv d subs0 []
      { subLevels := subs0, currentIdx := none, closest := dblMax,
        events := [] } := by
  refine ⟨rfl, rfl, fun _ => rfl, ?_, ?_, ?_⟩
  · intro j h; cases h
  · intro i; simp
  · intro e; simp

theorem distAt_lt_dblMax {d : ℚ → ℚ → ℚ → ℚ} {subs0 : List FCesiumSubLevel}
    (hb : ∀ l ∈ subs0,
      d l.levelLongitude l.levelLatitude l.levelHeight < dblMax) :
    ∀ i, distAt d subs0 i < dblMax := by
  intro i
  unfold distAt
  cases hs : subs0[i]? with
  | none =>
    have h0 : (0 : ℚ) < dblMax := by unfold dblMax; norm_num
    simpa using h0
  | some l =>
    obtain ⟨hlt, he⟩ := List.getElem?_eq_some.mp hs
    exact hb l (he ▸ List.getElem_mem hlt)

theorem pass_fold_inv (d : ℚ → ℚ → ℚ → ℚ) (subs0 : List FCesiumSubLevel)
    (hb : ∀ i, distAt d subs0 i < dblMax) :
    ∀ (names : List String) (pm : List ℕ) (st : SublevelPassState),
      passInv d subs0 pm st →
      (pm ++ matchedIdx subs0 names).Nodup →
      passInv d subs0 (pm ++ matchedIdx subs0 names)
        (names.foldl (sublevelStep d) st) := by
  intro names
  induction names with
  | nil =>
    intro pm st hinv _
    simpa [matchedIdx] using hinv
  | cons nm rest ih =>
    intro pm st hinv hnd
    rw [List.foldl_cons]
    cases hf : findLevelIdx nm subs0 with
    | none =>
      have hstep : sublevelStep d st nm = st := by
        have hno : findLevelIdx nm st.subLevels = none := by
          rw [findLevelIdx_congr hinv.1 nm, hf]
        simp only [sublevelStep, hno]
      rw [hstep]
      have hm : matchedIdx subs0 (nm :: rest) = matchedIdx subs0 rest := by
        simp [matchedIdx, List.filterMap_cons, hf]
      rw [hm] at hnd ⊢
      exact ih pm st hinv hnd
    | some i =>
      have hm : matchedIdx subs0 (nm :: rest) =
          i :: matchedIdx subs0 rest := by
        simp [matchedIdx, List.filterMap_cons, hf]
      rw [hm] at hnd ⊢
      have hassoc : pm ++ i :: matchedIdx subs0 rest =
          (pm ++ [i]) ++ matchedIdx subs0 rest := by simp
      rw [hassoc] at hnd ⊢
      have hipm : i ∉ pm := by
        have h1 := (List.nodup_append.mp hnd).1
        rw [List.nodup_append] at h1
        exact fun hc => h1.2.2 hc (by simp)
      exact ih (pm ++ [i]) _
        (sublevelStep_inv d subs0 hb pm st nm i hf hipm hinv) hnd

/-- C2: in each per-tick sub-level pass (with a valid camera) over the
regions matched to the available host identifiers: the candidate is the
first region attaining the minimum viewer distance among regions whose
distance is strictly within their own load radius (`List.argmin` is
exactly that first-encountered minimum); every matched non-candidate
region is left unloaded, with an unload request whenever it was loaded;
at most one matched region is loaded after the pass (only the candidate);
and when no matched region is within its radius, every previously loaded
matched region becomes unloaded, no origin switch happens and the
inside-sub-level result is false.  The hypotheses ask that all viewer
distances are below `DBL_MAX` (always true of a double) and that the
host identifiers match pairwise distinct regions. -/
theorem updateSublevelState_proximity_selection
    (d : ℚ → ℚ → ℚ → ℚ) (streamedNames : List String)
    (subs0 : List FCesiumSubLevel)
    (hb : ∀ l ∈ subs0,
      d l.levelLongitude l.levelLatitude l.levelHeight < dblMax)
    (hnd : (matchedIdx subs0 streamedNames).Nodup) :
    (updateSublevelState d true streamedNames subs0).candidate =
      List.argmin (distAt d subs0)
        ((matchedIdx subs0 streamedNames).filter (inRadiusAt d subs0)) ∧
    (∀ j, (updateSublevelState d true streamedNames subs0).candidate =
        some j →
      j ∈ matchedIdx subs0 streamedNames ∧ inRadiusAt d subs0 j = true ∧
      ∀ k ∈ matchedIdx subs0 streamedNames, inRadiusAt d subs0 k = true →
        distAt d subs0 j ≤ distAt d subs0 k) ∧
    (∀ i ∈ matchedIdx subs0 streamedNames,
      (updateSublevelState d true streamedNames subs0).candidate ≠ some i →
      loadedAt (updateSublevelState d true streamedNames subs0).subLevels i =
        false ∧
      (loadedAt subs0 i = true →
        (i, false) ∈ (updateSublevelState d true streamedNames subs0).events)) ∧
    (∀ i ∈ matchedIdx subs0 streamedNames,
      loadedAt (updateSublevelState d true streamedNames subs0).subLevels i =
        true →
      (updateSublevelState d true streamedNames subs0).candidate = some i) ∧
    ((∀ i ∈ matchedIdx subs0 streamedNames, inRadiusAt d subs0 i = false) →
      (∀ i ∈ matchedIdx subs0 streamedNames,
        loadedAt (updateSublevelState d true streamedNames subs0).subLevels i =
          false) ∧
      (updateSublevelState d true streamedNames subs0).originSwitch = none ∧
      (updateSublevelState d true streamedNames subs0).insideSublevel =
        false) := by
  have hb' := distAt_lt_dblMax hb
  have hinv := pass_fold_inv d subs0 hb' streamedNames []
    { subLevels := subs0, currentIdx := none, closest := dblMax, events := [] }
    (passInv_init d subs0) (by simpa using hnd)
  rw [List.nil_append] at hinv
  obtain ⟨hcore, hcand, hclosn, hcloss, hload, hev⟩ := hinv
  have hlen := map_core_length hcore
  have hred : updateSublevelState d true streamedNames subs0 =
      finalizeSublevelPass
        (streamedNames.foldl (sublevelStep d)
          { subLevels := subs0, currentIdx := none, closest := dblMax,
            events := [] }) := rfl
  rw [hred]
  cases hcI : (streamedNames.foldl (sublevelStep d)
      { subLevels := subs0, currentIdx := none, closest := dblMax,
        events := [] }).currentIdx with
  | none =>
    have hfin : finalizeSublevelPass
        (streamedNames.foldl (sublevelStep d)
          { subLevels := subs0, currentIdx := none, closest := dblMax,
            events := [] }) =
        { subLevels := (streamedNames.foldl (sublevelStep d)
            { subLevels := subs0, currentIdx := none, closest := dblMax,
              events := [] }).subLevels,
          events := (streamedNames.foldl (sublevelStep d)
            { subLevels := subs0, currentIdx := none, closest := dblMax,
              events := [] }).events,
          originSwitch := none, candidate := none,
          insideSublevel := false } := by
      simp only [finalizeSublevelPass, hcI]
    rw [hfin]
    rw [hcI] at hcand hload hev
    have hunloaded : ∀ i ∈ matchedIdx subs0 streamedNames,
        loadedAt (streamedNames.foldl (sublevelStep d)
          { subLevels := subs0, currentIdx := none, closest := dblMax,
            events := [] }).subLevels i = false := by
      intro i hi
      by_contra hcon
      have hcon' : loadedAt (streamedNames.foldl (sublevelStep d)
          { subLevels := subs0, currentIdx := none, closest := dblMax,
            events := [] }).subLevels i = true := by simpa using hcon
      rcases ((hload i).mp hcon').2 with h | h
      · exact h hi
      · cases h
    refine ⟨hcand, ?_, ?_, ?_, ?_⟩
    · intro j hj; cases hj
    · intro i hi _
      refine ⟨hunloaded i hi, ?_⟩
      intro hL0
      exact (hev (i, false)).mpr ⟨rfl, hi, hL0, by simp⟩
    · intro i hi hl
      rw [hunloaded i hi] at hl
      cases hl
    · intro _
      exact ⟨hunloaded, rfl, rfl⟩
  | some j =>
    have hargj : List.argmin (distAt d subs0)
        ((matchedIdx subs0 streamedNames).filter (inRadiusAt d subs0)) =
        some j := by
      rw [← hcand, hcI]
    obtain ⟨hjmem, hRj⟩ :=
      List.mem_filter.mp (List.argmin_mem (Option.mem_def.mpr hargj))
    obtain ⟨lj, hlj0, _⟩ := inRadiusAt_some hRj
    have hj_lt : j < subs0.length := (List.getElem?_eq_some.mp hlj0).1
    have hmcj := map_core_get hcore j
    obtain ⟨cj, hcj, hcjcore⟩ :
        ∃ cj, (streamedNames.foldl (sublevelStep d)
          { subLevels := subs0, currentIdx := none, closest := dblMax,
            events := [] }).subLevels[j]? = some cj ∧
          levelCore cj = levelCore lj := by
      cases hsl : (streamedNames.foldl (sublevelStep d)
          { subLevels := subs0, currentIdx := none, closest := dblMax,
            events := [] }).subLevels[j]? with
      | none => rw [hsl, hlj0] at hmcj; simp at hmcj
      | some cj =>
        rw [hsl, hlj0] at hmcj
        simp only [Option.map_some', Option.some.injEq] at hmcj
        exact ⟨cj, rfl, hmcj⟩
    have hmin : ∀ k ∈ matchedIdx subs0 streamedNames,
        inRadiusAt d subs0 k = true →
        distAt d subs0 j ≤ distAt d subs0 k := by
      intro k hk hRk
      exact List.le_of_mem_argmin (List.mem_filter.mpr ⟨hk, hRk⟩)
        (Option.mem_def.mpr hargj)
    have hRjhall : (∀ i ∈ matchedIdx subs0 streamedNames,
        inRadiusAt d subs0 i = false) → False := by
      intro hall
      have := hall j hjmem
      rw [hRj] at this
      cases this
    have hunloaded : ∀ i ∈ matchedIdx subs0 streamedNames, i ≠ j →
        loadedAt (streamedNames.foldl (sublevelStep d)
          { subLevels := subs0, currentIdx := none, closest := dblMax,
            events := [] }).subLevels i = false := by
      intro i hi hij
      by_contra hcon
      have hcon' : loadedAt (streamedNames.foldl (sublevelStep d)
          { subLevels := subs0, currentIdx := none, closest := dblMax,
            events := [] }).subLevels i = true := by simpa using hcon
      rcases ((hload i).mp hcon').2 with h | h
      · exact h hi
      · rw [hcI] at h
        simp only [Option.some.injEq] at h
        exact hij h.symm
    by_cases hld : cj.currentlyLoaded = true
    · have hfin : finalizeSublevelPass
          (streamedNames.foldl (sublevelStep d)
            { subLevels := subs0, currentIdx := none, closest := dblMax,
              events := [] }) =
          { subLevels := (streamedNames.foldl (sublevelStep d)
              { subLevels := subs0, currentIdx := none, closest := dblMax,
                events := [] }).subLevels,
            events := (streamedNames.foldl (sublevelStep d)
              { subLevels := subs0, currentIdx := none, closest := dblMax,
                events := [] }).events,
            originSwitch := none, candidate := some j,
            insideSublevel := true } := by
        simp only [finalizeSublevelPass, hcI, hcj, if_pos hld]
      rw [hfin]
      refine ⟨hargj.symm, ?_, ?_, ?_, ?_⟩
      · intro j' hj'
        simp only [Option.some.injEq] at hj'
        subst hj'
        exact ⟨hjmem, hRj, hmin⟩
      · intro i hi hne
        have hij : i ≠ j := by
          intro hc
          exact hne (by rw [hc])
        refine ⟨hunloaded i hi hij, ?_⟩
        intro hL0
        apply (hev (i, false)).mpr
        refine ⟨rfl, hi, hL0, ?_⟩
        rw [hcI]
        intro hc
        simp only [Option.some.injEq] at hc
        exact hij hc.symm
      · intro i hi hl
        by_cases hij : i = j
        · rw [hij]
        · rw [hunloaded i hi hij] at hl
          cases hl
      · intro hall
        exact absurd hall (fun h => hRjhall h)
    · have hfin : finalizeSublevelPass
          (streamedNames.foldl (sublevelStep d)
            { subLevels := subs0, currentIdx := none, closest := dblMax,
              events := [] }) =
          { subLevels := (streamedNames.foldl (sublevelStep d)
              { subLevels := subs0, currentIdx := none, closest := dblMax,
                events := [] }).subLevels.set j
                { cj with currentlyLoaded := true },
            events := (streamedNames.foldl (sublevelStep d)
              { subLevels := subs0, currentIdx := none, closest := dblMax,
                events := [] }).events ++ [(j, true)],
            originSwitch :=
              some ⟨cj.levelLongitude, cj.levelLatitude, cj.levelHeight⟩,
            candidate := some j, insideSublevel := true } := by
        simp only [finalizeSublevelPass, hcI, hcj, if_neg hld]
      rw [hfin]
      refine ⟨hargj.symm, ?_, ?_, ?_, ?_⟩
      · intro j' hj'
        simp only [Option.some.injEq] at hj'
        subst hj'
        exact ⟨hjmem, hRj, hmin⟩
      · intro i hi hne
        have hij : i ≠ j := by
          intro hc
          exact hne (by rw [hc])
        constructor
        · rw [loadedAt_set_ne (fun h => hij h.symm)]
          exact hunloaded i hi hij
        · intro hL0
          apply List.mem_append_left
          apply (hev (i, false)).mpr
          refine ⟨rfl, hi, hL0, ?_⟩
          rw [hcI]
          intro hc
          simp only [Option.some.injEq] at hc
          exact hij hc.symm
      · intro i hi hl
        by_cases hij : i = j
        · rw [hij]
        · rw [loadedAt_set_ne (fun h => hij h.symm)] at hl
          rw [hunloaded i hi hij] at hl
          cases hl
      · intro hall
        exact absurd hall (fun h => hRjhall h)

/-- Witness for C2 at the spec's example: regions A (radius 1000,
distance 100) and B (radius 500, distance 50) are both within radius and
B is closer, so B (index 1) is the selected candidate. -/
theorem updateSublevelState_proximity_selection_witness :
    (∀ l ∈ c2subs,
      c2d l.levelLongitude l.levelLatitude l.levelHeight < dblMax) ∧
    (matchedIdx c2subs ["A", "B"]).Nodup ∧
    (updateSublevelState c2d true ["A", "B"] c2subs).candidate = some 1 := by
  have hball : ∀ l ∈ c2subs,
      c2d l.levelLongitude l.levelLatitude l.levelHeight < dblMax := by
    intro l hl
    fin_cases hl <;> norm_num [c2d, dblMax]
  refine ⟨hball, by decide, ?_⟩
  have h := (updateSublevelState_proximity_selection c2d ["A", "B"] c2subs
    hball (by decide)).1
  rw [h]
  decide
